import Mathlib

/-!
Verification of the websocketpp HTTP parser body/header engine
(`websocketpp/http/impl/parser.hpp`) against its natural-language
specification.  The C++ member functions of `websocketpp::http::parser::parser`
are shallowly embedded as pure Lean functions over an explicit `ParserState`;
`lib::error_code` results become `Option HttpError` (with `none` for the
success code), and `size_t` arithmetic is `Nat` with explicit `% 2 ^ 64`
where the C++ can wrap.
-/

namespace WsppHttp

/-- The error codes of `websocketpp::http::parser::error` used by parser.hpp. -/
inductive HttpError where
  | invalidHeaderName
  | bodyTooLarge
  | unknownContentEncoding
  | unsupportedContentEncoding
  | unknownTransferEncoding
  | unsupportedTransferEncoding
  | invalidFormat
  deriving DecidableEq, Repr

/-- The closed content-encoding enumeration (`content_encoding`). -/
inductive ContentEncoding where
  | gzip
  | compress
  | deflate
  deriving DecidableEq, Repr

/-- The closed transfer-encoding enumeration (`transfer_encoding`). -/
inductive TransferEncoding where
  | gzip
  | compress
  | deflate
  | chunked
  deriving DecidableEq, BEq, Repr

/-- ASCII lower-casing of one character, as done by the case-insensitive
header comparator. -/
def lowerChar (c : Char) : Char :=
  if 'A' ≤ c ∧ c ≤ 'Z' then Char.ofNat (c.toNat + 32) else c

/-- Case-insensitive string equality: the comparison used by the
`header_list` map's comparator. -/
def ciEq (a b : String) : Bool :=
  a.toList.map lowerChar == b.toList.map lowerChar

/-- The header store: one `(name, value)` entry per case-insensitive key,
modelling the `std::map` with case-insensitive comparator (`header_list`). -/
abbrev HeaderList := List (String × String)

/-- Case-insensitive lookup, modelling `m_headers.find(key)`. -/
def findHeader (hs : HeaderList) (k : String) : Option String :=
  match hs with
  | [] => none
  | (k0, v0) :: t => if ciEq k0 k then some v0 else findHeader t k

/-- Case-insensitive insert-or-assign, modelling `m_headers[key] = val`:
an existing entry keeps its original key spelling, only the value changes. -/
def setHeaderList (hs : HeaderList) (k v : String) : HeaderList :=
  match hs with
  | [] => [(k, v)]
  | (k0, v0) :: t =>
    if ciEq k0 k then (k0, v) :: t else (k0, v0) :: setHeaderList t k v

/-- Case-insensitive removal, modelling `m_headers.erase(key)` (a map holds
at most one entry per equivalent key; removing every equivalent entry is the
same operation on representable states). -/
def eraseHeaderList (hs : HeaderList) (k : String) : HeaderList :=
  match hs with
  | [] => []
  | (k0, v0) :: t =>
    if ciEq k0 k then eraseHeaderList t k else (k0, v0) :: eraseHeaderList t k

/-- Modelled from the spec: an HTTP token character (letters, digits and the
RFC 7230 punctuation set); `is_not_token_char` itself is declared outside
parser.hpp.  Character codes 39 and 96 are the apostrophe and the backtick. -/
def isTokenChar (c : Char) : Bool :=
  c.isAlphanum || c = '!' || c = '#' || c = '$' || c = '%' || c = '&' ||
  c.toNat = 39 || c = '*' || c = '+' || c = '-' || c = '.' || c = '^' ||
  c = '_' || c.toNat = 96 || c = '|' || c = '~'

/-- `std::find_if(key.begin(), key.end(), is_not_token_char) == key.end()`. -/
def validHeaderName (k : String) : Bool :=
  k.toList.all isTokenChar

/-- A parsed parameter-list entry: primary token and its attributes. -/
abbrev PlistEntry := String × List (String × String)

/-- The state of one `websocketpp::http::parser::parser` instance, restricted
to the members parser.hpp manipulates. -/
structure ParserState where
  headers : HeaderList
  body : String
  contentEncodings : List ContentEncoding
  transferEncodings : List TransferEncoding
  bytesNeeded : Nat
  bytesTotal : Nat
  bytesMax : Nat
  deriving DecidableEq, Repr

/-- A freshly constructed parser with a configured `max_bytes` and a given
header store (headers as accumulated before body negotiation begins). -/
def initParser (maxBytes : Nat) (hs : HeaderList) : ParserState :=
  { headers := hs
    body := ""
    contentEncodings := []
    transferEncodings := []
    bytesNeeded := 0
    bytesTotal := 0
    bytesMax := maxBytes }

/-- `parser::get_header` (parser.hpp:48): case-insensitive find; absent key
yields the shared `empty_header`, the empty string. -/
def getHeader (s : ParserState) (k : String) : String :=
  match findHeader s.headers k with
  | none => ""
  | some v => v

/-- `parser::append_header` (parser.hpp:72): reject a non-token name before
any mutation; store verbatim when `get_header` is empty, else fold the new
value onto the old one after a comma and a space. -/
def appendHeader (s : ParserState) (k v : String) : Option HttpError × ParserState :=
  if !validHeaderName k then
    (some HttpError.invalidHeaderName, s)
  else if getHeader s k = "" then
    (none, { s with headers := setHeaderList s.headers k v })
  else
    (none, { s with headers := setHeaderList s.headers k (getHeader s k ++ ", " ++ v) })

/-- `parser::replace_header` (parser.hpp:87). -/
def replaceHeader (s : ParserState) (k v : String) : Option HttpError × ParserState :=
  if !validHeaderName k then
    (some HttpError.invalidHeaderName, s)
  else
    (none, { s with headers := setHeaderList s.headers k v })

/-- `parser::remove_header` (parser.hpp:98). -/
def removeHeader (s : ParserState) (k : String) : Option HttpError × ParserState :=
  if !validHeaderName k then
    (some HttpError.invalidHeaderName, s)
  else
    (none, { s with headers := eraseHeaderList s.headers k })

/-- The `Header_ContentLength` constant. -/
def headerContentLength : String := "Content-Length"

/-- The `Header_ContentEncoding` constant. -/
def headerContentEncoding : String := "Content-Encoding"

/-- The `Header_TransferEncoding` constant. -/
def headerTransferEncoding : String := "Transfer-Encoding"

/-- `parser::set_body` (parser.hpp:108): empty value removes Content-Length
and clears the body; an oversized value is rejected before any mutation;
otherwise Content-Length is replaced by the decimal length and the body
stored verbatim. -/
def setBody (s : ParserState) (value : String) : Option HttpError × ParserState :=
  if value.length = 0 then
    match removeHeader s headerContentLength with
    | (some e, s1) => (some e, s1)
    | (none, s1) => (none, { s1 with body := "" })
  else if s.bytesMax ≠ 0 ∧ value.length > s.bytesMax then
    (some HttpError.bodyTooLarge, s)
  else
    match replaceHeader s headerContentLength (toString value.length) with
    | (some e, s1) => (some e, s1)
    | (none, s1) => (none, { s1 with body := value })

/-- `parser::consume_body` (parser.hpp:131). -/
def consumeBody (s : ParserState) : ParserState :=
  { s with body := "" }

/-! ### The parameter-list grammar

`extract_parameters` is declared outside parser.hpp, so it is modelled from
the specification's grammar. -/

/-- Linear white space inside a header value: space and horizontal tab. -/
def isLwsChar (c : Char) : Bool :=
  c = ' ' || c = '\t'

/-- Drop leading linear white space. -/
def skipLWS (cs : List Char) : List Char :=
  cs.dropWhile isLwsChar

/-- Take the longest leading run of token characters. -/
def takeToken (cs : List Char) : String × List Char :=
  (String.mk (cs.takeWhile isTokenChar), cs.dropWhile isTokenChar)

/-- Modelled from the spec: one `param` of the grammar
`param := token ["=" (token | quoted-string)]`, read after a ";".
Returns the attribute and the rest (leading and trailing LWS skipped), or
`none` when the input does not match. -/
def parseOneAttr (cs : List Char) : Option ((String × String) × List Char) :=
  let cs1 := skipLWS cs
  let (name, cs2) := takeToken cs1
  if name = "" then none
  else
    match cs2 with
    | '=' :: cs3 =>
      match cs3 with
      | '"' :: cs4 =>
        let content := cs4.takeWhile (fun c => c ≠ '"')
        (match cs4.dropWhile (fun c => c ≠ '"') with
          | '"' :: cs5 => some ((name, String.mk content), skipLWS cs5)
          | _ => none)
      | _ =>
        let (value, cs4) := takeToken cs3
        if value = "" then none else some ((name, value), skipLWS cs4)
    | _ => some ((name, ""), skipLWS cs2)

/-- Modelled from the spec: the `(";" param)*` loop.  The fuel only bounds the
iteration count; each iteration consumes at least the ";" character, so a fuel
of the input length is never exhausted. -/
def parseAttrs (fuel : Nat) (cs : List Char) (acc : List (String × String)) :
    Option (List (String × String) × List Char) :=
  match fuel with
  | 0 => none
  | fuel' + 1 =>
    match cs with
    | ';' :: cs1 =>
      match parseOneAttr cs1 with
      | none => none
      | some (attr, cs2) => parseAttrs fuel' cs2 (acc ++ [attr])
    | _ => some (acc, cs)

/-- Modelled from the spec: the list level of the grammar
`list := LWS token LWS (";" param)* ("," list)?`; the whole input must be
consumed, otherwise the parse fails.  Each entry consumes at least its token
character, so a fuel of the input length plus one is never exhausted. -/
def extractEntries (fuel : Nat) (cs : List Char) (acc : List PlistEntry) :
    Option (List PlistEntry) :=
  match fuel with
  | 0 => none
  | fuel' + 1 =>
    let cs1 := skipLWS cs
    let (tok, cs2) := takeToken cs1
    if tok = "" then none
    else
      match parseAttrs fuel (skipLWS cs2) [] with
      | none => none
      | some (attrs, cs3) =>
        match cs3 with
        | [] => some (acc ++ [(tok, attrs)])
        | ',' :: cs4 => extractEntries fuel' cs4 (acc ++ [(tok, attrs)])
        | _ => none

/-- Modelled from the spec: `extract_parameters`.  On success the whole value
reduces to the grammar and the entries are produced; on any mismatch the
parse reports failure (the source returns its `begin` iterator). -/
def extractParameters (cs : List Char) : Option (List PlistEntry) :=
  extractEntries (cs.length + 1) cs []

/-- `parser::parse_parameter_list` (parser.hpp:136): empty input yields
`false` with no entries; otherwise the boolean is `it == in.begin()`, which
is `true` exactly when `extract_parameters` failed (entries pushed before the
failure point are never read by any caller, so they are modelled as `[]`). -/
def parseParameterList (v : String) : Bool × List PlistEntry :=
  if v.length = 0 then (false, [])
  else
    match extractParameters v.toList with
    | none => (true, [])
    | some entries => (false, entries)

/-- `parser::get_header_as_plist` (parser.hpp:60): absent or empty header
yields `false` with no entries; otherwise defer to `parse_parameter_list`. -/
def getHeaderAsPlist (s : ParserState) (k : String) : Bool × List PlistEntry :=
  match findHeader s.headers k with
  | none => (false, [])
  | some v => if v.length = 0 then (false, []) else parseParameterList v

/-! ### strtoul

`std::strtoul` semantics as used at parser.hpp:206 and parser.hpp:248: skip
leading white space, optional sign, optional `0x` prefix in base 16, then
digits; the second component is the index one past the last digit consumed,
or 0 when no conversion was performed; the value clamps at `ULONG_MAX` and a
minus sign negates in the unsigned (64-bit) type. -/

/-- Numeric value of one digit character (99 when not a digit in any base). -/
def digitValue (c : Char) : Nat :=
  if '0' ≤ c ∧ c ≤ '9' then c.toNat - '0'.toNat
  else if 'a' ≤ c ∧ c ≤ 'z' then c.toNat - 'a'.toNat + 10
  else if 'A' ≤ c ∧ c ≤ 'Z' then c.toNat - 'A'.toNat + 10
  else 99

/-- Whether `c` is a digit of the given base. -/
def isBaseDigit (base : Nat) (c : Char) : Bool :=
  digitValue c < base

/-- White space as classified by `isspace` in the C locale. -/
def isCSpace (c : Char) : Bool :=
  c = ' ' || c = '\t' || c = '\n' || c = '\x0b' || c = '\x0c' || c = '\r'

/-- Accumulate leading digits of the given base; returns the value and the
number of digit characters consumed. -/
def takeDigits (base : Nat) : List Char → Nat → Nat × Nat
  | [], acc => (acc, 0)
  | c :: cs, acc =>
    if isBaseDigit base c then
      let r := takeDigits base cs (acc * base + digitValue c)
      (r.1, r.2 + 1)
    else (acc, 0)

/-- `std::strtoul(s, &end, base)` on a 64-bit `unsigned long`: returns the
converted value and the offset of `end` from the start of the string. -/
def strtoul (base : Nat) (cs : List Char) : Nat × Nat :=
  let ws := (cs.takeWhile isCSpace).length
  let cs1 := cs.drop ws
  let sign : Bool × Nat :=
    match cs1 with
    | '-' :: _ => (true, 1)
    | '+' :: _ => (false, 1)
    | _ => (false, 0)
  let cs2 := cs1.drop sign.2
  let prefixLen : Nat :=
    if base = 16 then
      match cs2 with
      | '0' :: 'x' :: d :: _ => if isBaseDigit 16 d then 2 else 0
      | '0' :: 'X' :: d :: _ => if isBaseDigit 16 d then 2 else 0
      | _ => 0
    else 0
  let cs3 := cs2.drop prefixLen
  let r := takeDigits base cs3 0
  if r.2 = 0 then (0, 0)
  else
    let value :=
      if r.1 ≥ 2 ^ 64 then 2 ^ 64 - 1
      else if sign.1 then (2 ^ 64 - r.1 % 2 ^ 64) % 2 ^ 64
      else r.1
    (value, ws + sign.2 + prefixLen + r.2)

/-! ### prepare_body (parser.hpp:148)

The function is straight-line with early returns; it is embedded as three
phases (Content-Encoding block, Transfer-Encoding block, Content-Length
fallthrough) matching the three sections of the source. -/

/-- Modelled from the spec: `content_encoding::from_string`, the closed
mapping of Content-Encoding tokens (`x-gzip` folds to gzip; comparisons are
case-sensitive). -/
def contentEncodingFromString (tok : String) : Option ContentEncoding :=
  if tok = "gzip" ∨ tok = "x-gzip" then some ContentEncoding.gzip
  else if tok = "compress" then some ContentEncoding.compress
  else if tok = "deflate" then some ContentEncoding.deflate
  else none

/-- The Content-Encoding loop of parser.hpp:153-169: push each mapped token
(`push_back` on `m_content_encoding`), fail on an unmappable token, and only
after the loop reject more than 3 accumulated entries. -/
def pushContentEncodings (s : ParserState) :
    List PlistEntry → Option HttpError × ParserState
  | [] =>
    if s.contentEncodings.length > 3 then
      (some HttpError.unsupportedContentEncoding, s)
    else (none, s)
  | (tok, _) :: rest =>
    match contentEncodingFromString tok with
    | some enc =>
      pushContentEncodings { s with contentEncodings := s.contentEncodings ++ [enc] } rest
    | none => (some HttpError.unknownContentEncoding, s)

/-- The Transfer-Encoding loop of parser.hpp:174-193 with its inline token
comparisons, then the cardinality check. -/
def pushTransferEncodings (s : ParserState) :
    List PlistEntry → Option HttpError × ParserState
  | [] =>
    if s.transferEncodings.length > 3 then
      (some HttpError.unsupportedTransferEncoding, s)
    else (none, s)
  | (tok, _) :: rest =>
    if tok = "gzip" ∨ tok = "x-gzip" then
      pushTransferEncodings
        { s with transferEncodings := s.transferEncodings ++ [TransferEncoding.gzip] } rest
    else if tok = "compress" then
      pushTransferEncodings
        { s with transferEncodings := s.transferEncodings ++ [TransferEncoding.compress] } rest
    else if tok = "deflate" then
      pushTransferEncodings
        { s with transferEncodings := s.transferEncodings ++ [TransferEncoding.deflate] } rest
    else if tok = "chunked" then
      pushTransferEncodings
        { s with transferEncodings := s.transferEncodings ++ [TransferEncoding.chunked] } rest
    else (some HttpError.unknownTransferEncoding, s)

/-- The Content-Encoding block of `prepare_body` (parser.hpp:151-170): the
loop runs when `get_header_as_plist` reports `false` (absent, empty, or a
successful parse); a header that fails to parse skips the block. -/
def prepareBodyCE (s : ParserState) : Option HttpError × ParserState :=
  match getHeaderAsPlist s headerContentEncoding with
  | (true, _) => (none, s)
  | (false, ceList) => pushContentEncodings s ceList

/-- The Transfer-Encoding block of `prepare_body` (parser.hpp:172-197): the
loop additionally requires a nonempty list; after a successful loop, finding
`chunked` among the accumulated transfer encodings returns early with
"body expected" (the boolean component). -/
def prepareBodyTE (s : ParserState) : Option HttpError × Bool × ParserState :=
  match getHeaderAsPlist s headerTransferEncoding with
  | (fail, teList) =>
    if fail = false ∧ teList ≠ [] then
      match pushTransferEncodings s teList with
      | (some e, s1) => (some e, false, s1)
      | (none, s1) =>
        (none, s1.transferEncodings.contains TransferEncoding.chunked, s1)
    else (none, false, s)

/-- The Content-Length fallthrough of `prepare_body` (parser.hpp:199-220):
note that `m_body_bytes_total = m_body_bytes_needed = strtoul(...)` commits
the counters before the trailing-character and size-limit checks run. -/
def prepareBodyCL (s : ParserState) : Bool × Option HttpError × ParserState :=
  if getHeader s headerContentLength = "" then (false, none, s)
  else if (strtoul 10 (getHeader s headerContentLength).toList).2 ≠
      (getHeader s headerContentLength).length then
    (false, some HttpError.invalidFormat,
      { s with bytesTotal := (strtoul 10 (getHeader s headerContentLength).toList).1
               bytesNeeded := (strtoul 10 (getHeader s headerContentLength).toList).1 })
  else if s.bytesMax ≠ 0 ∧
      (strtoul 10 (getHeader s headerContentLength).toList).1 > s.bytesMax then
    (false, some HttpError.bodyTooLarge,
      { s with bytesTotal := (strtoul 10 (getHeader s headerContentLength).toList).1
               bytesNeeded := (strtoul 10 (getHeader s headerContentLength).toList).1 })
  else
    (decide ((strtoul 10 (getHeader s headerContentLength).toList).1 ≠ 0), none,
      { s with bytesTotal := (strtoul 10 (getHeader s headerContentLength).toList).1
               bytesNeeded := (strtoul 10 (getHeader s headerContentLength).toList).1 })

/-- `parser::prepare_body` (parser.hpp:148): returns whether a body is
expected, the error code, and the mutated parser. -/
def prepareBody (s : ParserState) : Bool × Option HttpError × ParserState :=
  match prepareBodyCE s with
  | (some e, s1) => (false, some e, s1)
  | (none, s1) =>
    match prepareBodyTE s1 with
    | (some e, _, s2) => (false, some e, s2)
    | (none, true, s2) => (true, none, s2)
    | (none, false, s2) => prepareBodyCL s2

/-! ### process_body (parser.hpp:223) -/

/-- Index of the first occurrence of the CRLF pair in the buffer
(`std::search(buf, buf + len, http_crlf, ...)`; absent yields `none` where
the source yields `buf + len`). -/
def findCRLF : List Char → Option Nat
  | '\r' :: '\n' :: _ => some 0
  | _ :: t => (findCRLF t).map (· + 1)
  | [] => none

/-- The body of `parser::process_body` (parser.hpp:223), with a structural
fuel bounding the recursion depth so the kernel can evaluate it: plain
framing consumes `min(bytes_needed, len)`; chunked framing consumes a pending
chunk like plain framing, or parses a chunk-size line, committing
`bytes_needed`/`bytes_total` (`size_t` addition, hence `% 2 ^ 64`) before
validating the hex digits and the size limit, treating size 0 as the
terminal chunk (the whole buffer is reported consumed), and otherwise
recursing on the rest of the buffer.  Each recursion drops at least the two
CRLF characters, so any fuel exceeding the buffer length is never exhausted
(`processBodyAux_fuel` below).  Result: input bytes consumed, error code,
mutated parser. -/
def processBodyAux (fuel : Nat) (s : ParserState) (buf : List Char) :
    Nat × Option HttpError × ParserState :=
  match fuel with
  | 0 => (0, none, s)
  | fuel' + 1 =>
    if buf.length = 0 then (0, none, s)
    else if s.transferEncodings.contains TransferEncoding.chunked then
      if s.bytesNeeded ≠ 0 then
        (min s.bytesNeeded buf.length, none,
          { s with body := s.body ++ String.mk (buf.take (min s.bytesNeeded buf.length))
                   bytesNeeded := s.bytesNeeded - min s.bytesNeeded buf.length })
      else
        match findCRLF buf with
        | none => (0, some HttpError.invalidFormat, s)
        | some i =>
          if (strtoul 16 (buf.take i)).2 ≠ (buf.take i).length then
            (0, some HttpError.invalidFormat,
              { s with bytesNeeded := (strtoul 16 (buf.take i)).1
                       bytesTotal := (s.bytesTotal + (strtoul 16 (buf.take i)).1) % 2 ^ 64 })
          else if s.bytesMax ≠ 0 ∧
              (s.bytesTotal + (strtoul 16 (buf.take i)).1) % 2 ^ 64 > s.bytesMax then
            (0, some HttpError.bodyTooLarge,
              { s with bytesNeeded := (strtoul 16 (buf.take i)).1
                       bytesTotal := (s.bytesTotal + (strtoul 16 (buf.take i)).1) % 2 ^ 64 })
          else if (strtoul 16 (buf.take i)).1 = 0 then
            (buf.length, none,
              { s with bytesNeeded := (strtoul 16 (buf.take i)).1
                       bytesTotal := (s.bytesTotal + (strtoul 16 (buf.take i)).1) % 2 ^ 64 })
          else
            (i + 2 +
              (processBodyAux fuel'
                { s with bytesNeeded := (strtoul 16 (buf.take i)).1
                         bytesTotal := (s.bytesTotal + (strtoul 16 (buf.take i)).1) % 2 ^ 64 }
                (buf.drop (i + 2))).1,
             (processBodyAux fuel'
                { s with bytesNeeded := (strtoul 16 (buf.take i)).1
                         bytesTotal := (s.bytesTotal + (strtoul 16 (buf.take i)).1) % 2 ^ 64 }
                (buf.drop (i + 2))).2.1,
             (processBodyAux fuel'
                { s with bytesNeeded := (strtoul 16 (buf.take i)).1
                         bytesTotal := (s.bytesTotal + (strtoul 16 (buf.take i)).1) % 2 ^ 64 }
                (buf.drop (i + 2))).2.2)
    else
      (min s.bytesNeeded buf.length, none,
        { s with body := s.body ++ String.mk (buf.take (min s.bytesNeeded buf.length))
                 bytesNeeded := s.bytesNeeded - min s.bytesNeeded buf.length })

/-- `parser::process_body` (parser.hpp:223): the recursion of the source,
run with sufficient fuel. -/
def processBody (s : ParserState) (buf : List Char) :
    Nat × Option HttpError × ParserState :=
  processBodyAux (buf.length + 1) s buf

/-! ### process_header (parser.hpp:276) -/

/-- Whether the input starts with the `header_separator` sequence ": ". -/
def startsWithSep (cs : List Char) : Bool :=
  match cs with
  | ':' :: ' ' :: _ => true
  | _ => false

/-- Whether the separator sequence ": " occurs at offset `i` of the line. -/
def sepAt (cs : List Char) (i : Nat) : Bool :=
  startsWithSep (cs.drop i)

/-- Index of the first occurrence of the `header_separator` ": "
(`std::search` over the line). -/
def findSep : List Char → Option Nat
  | [] => none
  | c :: t => if startsWithSep (c :: t) then some 0 else (findSep t).map (· + 1)

/-- Modelled from the spec: `strip_lws`, trimming leading and trailing
linear white space from a header name or value. -/
def stripLws (cs : List Char) : String :=
  String.mk (((cs.dropWhile isLwsChar).reverse.dropWhile isLwsChar).reverse)

/-- `parser::process_header` (parser.hpp:276): a line without the ": "
separator returns the `body_too_large` error code; otherwise the line is
split there, both halves stripped of LWS, and appended as a header. -/
def processHeader (s : ParserState) (line : String) : Option HttpError × ParserState :=
  match findSep line.toList with
  | none => (some HttpError.bodyTooLarge, s)
  | some i =>
    appendHeader s (stripLws (line.toList.take i)) (stripLws (line.toList.drop (i + 2)))

/-! ### Helper lemmas about the header store -/

theorem ciEq_refl (k : String) : ciEq k k = true := by
  simp [ciEq]

theorem findHeader_set_self (hs : HeaderList) (k v : String) :
    findHeader (setHeaderList hs k v) k = some v := by
  induction hs with
  | nil => simp [setHeaderList, findHeader, ciEq_refl]
  | cons p t ih =>
    obtain ⟨k0, v0⟩ := p
    by_cases h : ciEq k0 k
    · simp [setHeaderList, findHeader, h]
    · simp [setHeaderList, findHeader, h, ih]

theorem findHeader_erase_self (hs : HeaderList) (k : String) :
    findHeader (eraseHeaderList hs k) k = none := by
  induction hs with
  | nil => rfl
  | cons p t ih =>
    obtain ⟨k0, v0⟩ := p
    by_cases h : ciEq k0 k
    · simp [eraseHeaderList, h, ih]
    · simp [eraseHeaderList, findHeader, h, ih]

/-! ### Helper lemmas about the prepare_body phases -/

theorem pushContentEncodings_fields (l : List PlistEntry) (s : ParserState) :
    (pushContentEncodings s l).2.headers = s.headers
    ∧ (pushContentEncodings s l).2.body = s.body
    ∧ (pushContentEncodings s l).2.transferEncodings = s.transferEncodings
    ∧ (pushContentEncodings s l).2.bytesNeeded = s.bytesNeeded
    ∧ (pushContentEncodings s l).2.bytesTotal = s.bytesTotal
    ∧ (pushContentEncodings s l).2.bytesMax = s.bytesMax := by
  induction l generalizing s with
  | nil =>
    unfold pushContentEncodings
    split <;> simp
  | cons p t ih =>
    obtain ⟨tok, attrs⟩ := p
    unfold pushContentEncodings
    cases h : contentEncodingFromString tok with
    | some enc => simpa using ih _
    | none => simp

theorem pushTransferEncodings_fields (l : List PlistEntry) (s : ParserState) :
    (pushTransferEncodings s l).2.headers = s.headers
    ∧ (pushTransferEncodings s l).2.body = s.body
    ∧ (pushTransferEncodings s l).2.contentEncodings = s.contentEncodings
    ∧ (pushTransferEncodings s l).2.bytesNeeded = s.bytesNeeded
    ∧ (pushTransferEncodings s l).2.bytesTotal = s.bytesTotal
    ∧ (pushTransferEncodings s l).2.bytesMax = s.bytesMax := by
  induction l generalizing s with
  | nil =>
    unfold pushTransferEncodings
    split <;> simp
  | cons p t ih =>
    obtain ⟨tok, attrs⟩ := p
    unfold pushTransferEncodings
    split
    · simpa using ih _
    · split
      · simpa using ih _
      · split
        · simpa using ih _
        · split
          · simpa using ih _
          · simp

theorem prepareBodyCE_fields (s : ParserState) :
    (prepareBodyCE s).2.headers = s.headers
    ∧ (prepareBodyCE s).2.body = s.body
    ∧ (prepareBodyCE s).2.transferEncodings = s.transferEncodings
    ∧ (prepareBodyCE s).2.bytesNeeded = s.bytesNeeded
    ∧ (prepareBodyCE s).2.bytesTotal = s.bytesTotal
    ∧ (prepareBodyCE s).2.bytesMax = s.bytesMax := by
  unfold prepareBodyCE
  cases h : getHeaderAsPlist s headerContentEncoding with
  | mk fail l =>
    cases fail
    · simpa using pushContentEncodings_fields l s
    · simp

theorem prepareBodyTE_fields (s : ParserState) :
    (prepareBodyTE s).2.2.headers = s.headers
    ∧ (prepareBodyTE s).2.2.body = s.body
    ∧ (prepareBodyTE s).2.2.contentEncodings = s.contentEncodings
    ∧ (prepareBodyTE s).2.2.bytesNeeded = s.bytesNeeded
    ∧ (prepareBodyTE s).2.2.bytesTotal = s.bytesTotal
    ∧ (prepareBodyTE s).2.2.bytesMax = s.bytesMax := by
  unfold prepareBodyTE
  cases h : getHeaderAsPlist s headerTransferEncoding with
  | mk fail l =>
    by_cases hc : fail = false ∧ l ≠ []
    · simp only [hc, if_true]
      cases hp : pushTransferEncodings s l with
      | mk e s1 =>
        have hf := pushTransferEncodings_fields l s
        rw [hp] at hf
        cases e <;> simp_all
    · simp [hc]

/-! ### Helper lemmas about prepare_body on simple header sets -/

theorem ciEq_cl_ce : ciEq headerContentLength headerContentEncoding = false := by decide

theorem ciEq_cl_te : ciEq headerContentLength headerTransferEncoding = false := by decide

theorem ciEq_ce_te : ciEq headerContentEncoding headerTransferEncoding = false := by decide

theorem ciEq_te_ce : ciEq headerTransferEncoding headerContentEncoding = false := by decide

theorem ciEq_ce_cl : ciEq headerContentEncoding headerContentLength = false := by decide

theorem ciEq_te_cl : ciEq headerTransferEncoding headerContentLength = false := by decide

/-- With only a Content-Length header present, both encoding blocks of
`prepare_body` are inert and the call is its Content-Length fallthrough. -/
theorem prepareBody_cl_only (maxB : Nat) (cl : String) :
    prepareBody (initParser maxB [(headerContentLength, cl)]) =
      prepareBodyCL (initParser maxB [(headerContentLength, cl)]) := by
  simp [prepareBody, prepareBodyCE, prepareBodyTE, getHeaderAsPlist, findHeader,
    ciEq_cl_ce, ciEq_cl_te, pushContentEncodings, initParser]

/-- The fields of the state after the Content-Encoding block, phrased for a
known result pair. -/
theorem prepareBodyCE_eq_fields (s : ParserState) (e1 : Option HttpError)
    (s1 : ParserState) (h : prepareBodyCE s = (e1, s1)) :
    s1.headers = s.headers ∧ s1.body = s.body
    ∧ s1.transferEncodings = s.transferEncodings
    ∧ s1.bytesNeeded = s.bytesNeeded ∧ s1.bytesTotal = s.bytesTotal
    ∧ s1.bytesMax = s.bytesMax := by
  have hf := prepareBodyCE_fields s
  rw [h] at hf
  exact hf

/-- The fields of the state after the Transfer-Encoding block, phrased for a
known result triple. -/
theorem prepareBodyTE_eq_fields (s : ParserState) (e2 : Option HttpError) (b2 : Bool)
    (s2 : ParserState) (h : prepareBodyTE s = (e2, b2, s2)) :
    s2.headers = s.headers ∧ s2.body = s.body
    ∧ s2.contentEncodings = s.contentEncodings
    ∧ s2.bytesNeeded = s.bytesNeeded ∧ s2.bytesTotal = s.bytesTotal
    ∧ s2.bytesMax = s.bytesMax := by
  have hf := prepareBodyTE_fields s
  rw [h] at hf
  exact hf

/-! ### Helper lemmas about process_body -/

theorem strtoul16_nil : strtoul 16 [] = (0, 0) := rfl

/-- A chunked-mode call that starts inside a chunk (or with no input) never
reports an error and never moves the byte counters. -/
theorem processBodyAux_pending (fuel : Nat) (s : ParserState) (buf : List Char)
    (hn : s.bytesNeeded ≠ 0) :
    (processBodyAux fuel s buf).2.1 = none
    ∧ (processBodyAux fuel s buf).2.2.bytesTotal = s.bytesTotal
    ∧ (processBodyAux fuel s buf).2.2.bytesMax = s.bytesMax := by
  match fuel with
  | 0 => simp [processBodyAux]
  | fuel' + 1 =>
    unfold processBodyAux
    by_cases hb : buf.length = 0
    · simp [hb]
    · by_cases hch : s.transferEncodings.contains TransferEncoding.chunked
      · simp [hb, hch, hn]
      · simp [hb, hch]

/-- The Content-Length fallthrough keeps the budget invariant on success and
never touches the accumulated body. -/
theorem prepareBodyCL_budget (s : ParserState) (hmax : s.bytesMax ≠ 0)
    (hpre : s.bytesTotal ≤ s.bytesMax) :
    ((prepareBodyCL s).2.1 = none →
      (prepareBodyCL s).2.2.bytesTotal ≤ (prepareBodyCL s).2.2.bytesMax)
    ∧ (prepareBodyCL s).2.2.body = s.body := by
  unfold prepareBodyCL
  split
  · exact ⟨fun _ => hpre, rfl⟩
  · split
    · exact ⟨fun h => by simp at h, rfl⟩
    · split
      · exact ⟨fun h => by simp at h, rfl⟩
      · rename_i hne hfmt hbig
        refine ⟨fun _ => ?_, rfl⟩
        simp only [ne_eq, not_and, not_lt] at hbig
        exact hbig hmax

/-- The budget behaviour of one chunked/plain `process_body` call: a call
that returns success keeps `bytes_total ≤ max_bytes`; a call that returns
`body_too_large` has appended nothing to the body and consumed nothing. -/
theorem processBodyAux_budget (fuel : Nat) (s : ParserState) (buf : List Char)
    (hmax : s.bytesMax ≠ 0) (hpre : s.bytesTotal ≤ s.bytesMax) :
    ((processBodyAux fuel s buf).2.1 = none →
      (processBodyAux fuel s buf).2.2.bytesTotal ≤ (processBodyAux fuel s buf).2.2.bytesMax)
    ∧ ((processBodyAux fuel s buf).2.1 = some HttpError.bodyTooLarge →
      (processBodyAux fuel s buf).2.2.body = s.body ∧ (processBodyAux fuel s buf).1 = 0) := by
  cases fuel with
  | zero => simp [processBodyAux, hpre]
  | succ fuel' =>
    unfold processBodyAux
    split
    · exact ⟨fun _ => hpre, fun h => by simp at h⟩
    · split
      · split
        · exact ⟨fun _ => hpre, fun h => by simp at h⟩
        · split
          · exact ⟨fun h => by simp at h, fun h => by simp at h⟩
          · rename_i i hcr
            split
            · exact ⟨fun h => by simp at h, fun h => by simp at h⟩
            · split
              · exact ⟨fun h => by simp at h, fun _ => ⟨rfl, rfl⟩⟩
              · rename_i hfmt hbig
                have hle : (s.bytesTotal + (strtoul 16 (buf.take i)).1) % 2 ^ 64 ≤
                    s.bytesMax := by
                  rcases not_and_or.mp hbig with h | h
                  · exact absurd hmax h
                  · omega
                split
                · exact ⟨fun _ => hle, fun h => by simp at h⟩
                · rename_i h0
                  have hp := processBodyAux_pending fuel'
                    { s with bytesNeeded := (strtoul 16 (buf.take i)).1
                             bytesTotal := (s.bytesTotal + (strtoul 16 (buf.take i)).1) % 2 ^ 64 }
                    (buf.drop (i + 2)) (by simpa using h0)
                  refine ⟨fun _ => ?_, fun h => ?_⟩
                  · rw [hp.2.1, hp.2.2]
                    exact hle
                  · rw [hp.1] at h
                    simp at h
      · exact ⟨fun _ => hpre, fun h => by simp at h⟩

/-- A line none of whose offsets carries the ": " sequence has no separator. -/
theorem findSep_eq_none (cs : List Char)
    (h : ∀ i, i < cs.length → sepAt cs i = false) : findSep cs = none := by
  induction cs with
  | nil => rfl
  | cons c t ih =>
    have h0 : startsWithSep (c :: t) = false := h 0 (by simp)
    have ht : findSep t = none := by
      refine ih (fun i hi => ?_)
      have := h (i + 1) (by simpa using Nat.succ_lt_succ hi)
      simpa [sepAt, List.drop_succ_cons] using this
    simp [findSep, h0, ht]

/-- `validHeaderName` holds for the Content-Length constant. -/
theorem validHeaderName_cl : validHeaderName headerContentLength = true := by decide

/-! ## Claim theorems -/

/-- C2 (code behaviour at the claimed input): with `Transfer-Encoding:
chunked` negotiated, a single `process_body` call on the 23-byte buffer
`"4\r\nWiki\r\n5\r\npedia\r\n0\r\n\r\n"` consumes only 7 input bytes (the
chunk-size line plus the 4 payload bytes) and decodes the body `"Wiki"`,
not `"Wikipedia"`: the recursion re-enters the pending-chunk branch, which
returns after the payload without skipping the chunk-data CRLF. -/
theorem c2_chunked_single_call_eval :
    (prepareBody (initParser 0 [(headerTransferEncoding, "chunked")])).1 = true
    ∧ (prepareBody (initParser 0 [(headerTransferEncoding, "chunked")])).2.1 = none
    ∧ (processBody (prepareBody (initParser 0 [(headerTransferEncoding, "chunked")])).2.2
        "4\r\nWiki\r\n5\r\npedia\r\n0\r\n\r\n".toList).1 = 7
    ∧ (processBody (prepareBody (initParser 0 [(headerTransferEncoding, "chunked")])).2.2
        "4\r\nWiki\r\n5\r\npedia\r\n0\r\n\r\n".toList).2.1 = none
    ∧ (processBody (prepareBody (initParser 0 [(headerTransferEncoding, "chunked")])).2.2
        "4\r\nWiki\r\n5\r\npedia\r\n0\r\n\r\n".toList).2.2.body = "Wiki"
    ∧ "4\r\nWiki\r\n5\r\npedia\r\n0\r\n\r\n".toList.length = 24 := by
  decide

/-- C3 (counterexample): on `Content-Encoding: gzip, deflate, compress, br`
the call fails with `UnknownContentEncoding`, not with the claimed
`UnsupportedContentEncoding`. -/
theorem c3_counterexample :
    (prepareBody (initParser 0 [(headerContentEncoding, "gzip, deflate, compress, br")])).2.1 =
      some HttpError.unknownContentEncoding
    ∧ (prepareBody (initParser 0 [(headerContentEncoding, "gzip, deflate, compress, br")])).2.1 ≠
      some HttpError.unsupportedContentEncoding := by
  decide

/-- C3 (corrected): the per-token mapping check runs inside the loop and the
cardinality check only after the whole loop, so a 4-entry list with an
unknown last token fails with `UnknownContentEncoding`; the cardinality
failure `UnsupportedContentEncoding` fires when all four entries map, as in
`Content-Encoding: gzip, deflate, compress, gzip`. -/
theorem c3_amended :
    (prepareBody (initParser 0 [(headerContentEncoding, "gzip, deflate, compress, br")])).2.1 =
      some HttpError.unknownContentEncoding
    ∧ (prepareBody (initParser 0 [(headerContentEncoding, "gzip, deflate, compress, gzip")])).2.1 =
      some HttpError.unsupportedContentEncoding := by
  decide

/-- C6: `set_body("")` removes Content-Length and clears the body; an
oversized value fails with `BodyTooLarge` leaving the state unchanged; any
other value stores verbatim with Content-Length set to its decimal length,
leaving header and body length consistent. -/
theorem c6_set_body (s : ParserState) (v : String) :
    (setBody s "" = (none,
        { s with headers := eraseHeaderList s.headers headerContentLength, body := "" })
      ∧ getHeader (setBody s "").2 headerContentLength = "")
    ∧ (s.bytesMax ≠ 0 → v.length > s.bytesMax →
        setBody s v = (some HttpError.bodyTooLarge, s))
    ∧ (v.length ≠ 0 → (s.bytesMax = 0 ∨ v.length ≤ s.bytesMax) →
        (setBody s v).1 = none
        ∧ (setBody s v).2.body = v
        ∧ getHeader (setBody s v).2 headerContentLength = toString v.length
        ∧ getHeader (setBody s v).2 headerContentLength =
            toString (setBody s v).2.body.length) := by
  have hempty : setBody s "" = (none,
      { s with headers := eraseHeaderList s.headers headerContentLength, body := "" }) := by
    unfold setBody removeHeader
    simp [validHeaderName_cl]
  refine ⟨⟨hempty, ?_⟩, ?_, ?_⟩
  · rw [hempty]
    simp [getHeader, findHeader_erase_self]
  · intro h1 h2
    unfold setBody
    have hv0 : ¬ v.length = 0 := by omega
    simp [hv0, h1, h2]
  · intro h0 h3
    have hcond : ¬ (s.bytesMax ≠ 0 ∧ v.length > s.bytesMax) := by
      rcases h3 with h | h <;> omega
    have hrepl : setBody s v = (none,
        { s with headers := setHeaderList s.headers headerContentLength (toString v.length)
                 body := v }) := by
      unfold setBody replaceHeader
      simp [h0, hcond, validHeaderName_cl]
    rw [hrepl]
    simp [getHeader, findHeader_set_self]

/-- C6 witness: concrete applications of `c6_set_body`. -/
theorem c6_set_body_witness :
    setBody (initParser 3 []) "hello" = (some HttpError.bodyTooLarge, initParser 3 [])
    ∧ getHeader (setBody (initParser 0 []) "hello").2 headerContentLength = "5" := by
  refine ⟨(c6_set_body (initParser 3 []) "hello").2.1 (by decide) (by decide), ?_⟩
  have h := (c6_set_body (initParser 0 []) "hello").2.2 (by decide) (by decide)
  exact h.2.2.1.trans (by decide)

/-- C7 (counterexample): appending the empty value and then a second value
does not produce `"" ++ ", " ++ w` — the code treats the empty stored value
as "no prior value" and stores the second value verbatim. -/
theorem c7_counterexample :
    (appendHeader (initParser 0 []) "X" "").1 = none
    ∧ (appendHeader ((appendHeader (initParser 0 []) "X" "").2) "X" "b").1 = none
    ∧ getHeader ((appendHeader ((appendHeader (initParser 0 []) "X" "").2) "X" "b").2) "X" = "b"
    ∧ getHeader ((appendHeader ((appendHeader (initParser 0 []) "X" "").2) "X" "b").2) "X" ≠
        "" ++ ", " ++ "b" := by
  decide

/-- C7 (corrected): for token-character names and a nonempty first value,
append-then-get returns the value, a second append folds with exactly
`", "`, and a non-token name is rejected with `InvalidHeaderName` before any
mutation. -/
theorem c7_append_get (s : ParserState) (name v w : String)
    (hname : validHeaderName name = true) (hprior : getHeader s name = "")
    (hv : v ≠ "") :
    (appendHeader s name v).1 = none
    ∧ getHeader (appendHeader s name v).2 name = v
    ∧ (appendHeader (appendHeader s name v).2 name w).1 = none
    ∧ getHeader (appendHeader (appendHeader s name v).2 name w).2 name = v ++ ", " ++ w
    ∧ ∀ (s2 : ParserState) (k x : String), validHeaderName k = false →
        appendHeader s2 k x = (some HttpError.invalidHeaderName, s2) := by
  have h1 : appendHeader s name v =
      (none, { s with headers := setHeaderList s.headers name v }) := by
    unfold appendHeader
    simp [hname, hprior]
  have hg1 : getHeader { s with headers := setHeaderList s.headers name v } name = v := by
    simp [getHeader, findHeader_set_self]
  have h2 : appendHeader { s with headers := setHeaderList s.headers name v } name w =
      (none, { s with headers :=
          setHeaderList (setHeaderList s.headers name v) name (v ++ ", " ++ w) }) := by
    unfold appendHeader
    rw [hg1]
    simp [hname, hv]
  refine ⟨by rw [h1], by rw [h1]; exact hg1, ?_, ?_, ?_⟩
  · simp only [h1]
    rw [h2]
  · simp only [h1]
    rw [h2]
    simp [getHeader, findHeader_set_self]
  · intro s2 k x hk
    unfold appendHeader
    simp [hk]

/-- C7 witness: concrete application of `c7_append_get`. -/
theorem c7_append_get_witness :
    getHeader (appendHeader (appendHeader (initParser 0 []) "X" "a").2 "X" "b").2 "X" =
      "a" ++ ", " ++ "b" :=
  (c7_append_get (initParser 0 []) "X" "a" "b" (by decide) (by decide) (by decide)).2.2.2.1

/-- C9: a header line without the ": " separator sequence makes
`process_header` fail with the `body_too_large` error code (not
invalid-format, not invalid-header-name) and leaves the parser unchanged. -/
theorem c9_no_separator (s : ParserState) (line : String)
    (h : ∀ i, i < line.toList.length → sepAt line.toList i = false) :
    processHeader s line = (some HttpError.bodyTooLarge, s)
    ∧ (processHeader s line).1 ≠ some HttpError.invalidFormat
    ∧ (processHeader s line).1 ≠ some HttpError.invalidHeaderName
    ∧ (processHeader s line).2.headers = s.headers := by
  have hfs : findSep line.toList = none := findSep_eq_none _ h
  have hph : processHeader s line = (some HttpError.bodyTooLarge, s) := by
    unfold processHeader
    rw [hfs]
  refine ⟨hph, ?_, ?_, by rw [hph]⟩ <;> rw [hph] <;> simp

/-- C9 witness: concrete application of `c9_no_separator`. -/
theorem c9_no_separator_witness :
    processHeader (initParser 0 []) "NoSeparatorHere" =
      (some HttpError.bodyTooLarge, initParser 0 []) :=
  (c9_no_separator (initParser 0 []) "NoSeparatorHere" (by decide)).1

/-- C10: `append_header` tests for a prior value with `get_header(...).empty()`,
so after a value is replaced by the empty string a subsequent append stores
verbatim with no `", "` separator, and `get_header` cannot distinguish a
stored empty value from an absent header. -/
theorem c10_empty_prior_value (s : ParserState) (name v : String)
    (hname : validHeaderName name = true) :
    (appendHeader (replaceHeader s name "").2 name v).1 = none
    ∧ getHeader (appendHeader (replaceHeader s name "").2 name v).2 name = v
    ∧ getHeader (replaceHeader s name "").2 name = ""
    ∧ getHeader (replaceHeader s name "").2 name = getHeader (removeHeader s name).2 name := by
  have hrep : (replaceHeader s name "").2 =
      { s with headers := setHeaderList s.headers name "" } := by
    unfold replaceHeader
    simp [hname]
  have hget0 : getHeader (replaceHeader s name "").2 name = "" := by
    rw [hrep]
    simp [getHeader, findHeader_set_self]
  have hrem : getHeader (removeHeader s name).2 name = "" := by
    unfold removeHeader
    simp [hname, getHeader, findHeader_erase_self]
  have happ : appendHeader (replaceHeader s name "").2 name v =
      (none, { (replaceHeader s name "").2 with
          headers := setHeaderList ((replaceHeader s name "").2).headers name v }) := by
    unfold appendHeader
    simp [hname, hget0]
  refine ⟨by rw [happ], ?_, hget0, by rw [hget0, hrem]⟩
  rw [happ]
  simp [getHeader, findHeader_set_self]

/-- C10 witness: concrete application of `c10_empty_prior_value`. -/
theorem c10_empty_prior_value_witness :
    getHeader (appendHeader (replaceHeader (initParser 0 []) "X" "").2 "X" "val").2 "X" =
      "val" :=
  (c10_empty_prior_value (initParser 0 []) "X" "val" (by decide)).2.1

/-- C1 (counterexample): with `max_bytes = 5` and `Content-Length: 10`,
`prepare_body` fails with `BodyTooLarge` but has already committed
`bytes_total = 10`, which exceeds the configured ceiling — the limit is
checked after the counter is committed, not before. -/
theorem c1_counterexample :
    (prepareBody (initParser 5 [(headerContentLength, "10")])).2.1 =
      some HttpError.bodyTooLarge
    ∧ (prepareBody (initParser 5 [(headerContentLength, "10")])).2.2.bytesTotal = 10
    ∧ (prepareBody (initParser 5 [(headerContentLength, "10")])).2.2.bytesMax = 5
    ∧ ¬ (prepareBody (initParser 5 [(headerContentLength, "10")])).2.2.bytesTotal ≤
        (prepareBody (initParser 5 [(headerContentLength, "10")])).2.2.bytesMax := by
  decide

/-- C1 (corrected): with a nonzero `max_bytes` and `bytes_total ≤ max_bytes`
before the call, any `prepare_body` or `process_body` call that returns
without error leaves `bytes_total ≤ max_bytes`; an oversized update fails
with `BodyTooLarge` before any body bytes are stored (`prepare_body` never
touches the body; a `process_body` call failing with `BodyTooLarge` leaves
the body unchanged and consumes nothing) — but the counter itself is
committed before the check, so after a failing call `bytes_total` may exceed
`max_bytes`. -/
theorem c1_budget_on_success (s : ParserState) (buf : List Char)
    (hmax : s.bytesMax ≠ 0) (hpre : s.bytesTotal ≤ s.bytesMax) :
    ((prepareBody s).2.1 = none →
        (prepareBody s).2.2.bytesTotal ≤ (prepareBody s).2.2.bytesMax)
    ∧ (prepareBody s).2.2.body = s.body
    ∧ ((processBody s buf).2.1 = none →
        (processBody s buf).2.2.bytesTotal ≤ (processBody s buf).2.2.bytesMax)
    ∧ ((processBody s buf).2.1 = some HttpError.bodyTooLarge →
        (processBody s buf).2.2.body = s.body ∧ (processBody s buf).1 = 0) := by
  have hproc := processBodyAux_budget (buf.length + 1) s buf hmax hpre
  have hprep : ((prepareBody s).2.1 = none →
        (prepareBody s).2.2.bytesTotal ≤ (prepareBody s).2.2.bytesMax)
      ∧ (prepareBody s).2.2.body = s.body := by
    unfold prepareBody
    cases hce : prepareBodyCE s with
    | mk e1 s1 =>
      obtain ⟨hh1, hb1, ht1, hn1, htot1, hm1⟩ := prepareBodyCE_eq_fields s e1 s1 hce
      cases e1 with
      | some e => exact ⟨fun h => by simp at h, hb1⟩
      | none =>
        dsimp only
        cases hte : prepareBodyTE s1 with
        | mk e2 p =>
          obtain ⟨b2, s2⟩ := p
          obtain ⟨hh2, hb2, hc2, hn2, htot2, hm2⟩ :=
            prepareBodyTE_eq_fields s1 e2 b2 s2 hte
          cases e2 with
          | some e => exact ⟨fun h => by simp at h, hb2.trans hb1⟩
          | none =>
            cases b2 with
            | true =>
              exact ⟨fun _ => by rw [htot2, htot1, hm2, hm1]; exact hpre, hb2.trans hb1⟩
            | false =>
              have hcl := prepareBodyCL_budget s2
                (by rw [hm2, hm1]; exact hmax)
                (by rw [htot2, htot1, hm2, hm1]; exact hpre)
              exact ⟨hcl.1, hcl.2.trans (hb2.trans hb1)⟩
  exact ⟨hprep.1, hprep.2, hproc.1, hproc.2⟩

/-- C1 witness: concrete application of `c1_budget_on_success`. -/
theorem c1_budget_on_success_witness :
    (prepareBody (initParser 5 [(headerContentLength, "3")])).2.2.bytesTotal ≤
      (prepareBody (initParser 5 [(headerContentLength, "3")])).2.2.bytesMax :=
  (c1_budget_on_success (initParser 5 [(headerContentLength, "3")]) [] (by decide)
    (by decide)).1 (by decide)

/-- C4: the Content-Length path of `prepare_body`.  An absent header returns
false with no error and no mutation; a value whose `strtoul` parse does not
end exactly at the end of the string (any trailing non-numeric character,
e.g. `"12abc"`) fails with `InvalidFormat`; a parsed value exceeding a
nonzero `max_bytes` fails with `BodyTooLarge` before any body bytes are
read; otherwise `bytes_needed = bytes_total =` the parsed value and the call
returns true exactly when that value is nonzero. -/
theorem c4_content_length_path (maxB : Nat) (cl : String) :
    prepareBody (initParser maxB []) = (false, none, initParser maxB [])
    ∧ (cl ≠ "" → (strtoul 10 cl.toList).2 ≠ cl.length →
        prepareBody (initParser maxB [(headerContentLength, cl)]) =
          (false, some HttpError.invalidFormat,
            { initParser maxB [(headerContentLength, cl)] with
                bytesTotal := (strtoul 10 cl.toList).1
                bytesNeeded := (strtoul 10 cl.toList).1 }))
    ∧ (cl ≠ "" → (strtoul 10 cl.toList).2 = cl.length → maxB ≠ 0 →
        (strtoul 10 cl.toList).1 > maxB →
        prepareBody (initParser maxB [(headerContentLength, cl)]) =
          (false, some HttpError.bodyTooLarge,
            { initParser maxB [(headerContentLength, cl)] with
                bytesTotal := (strtoul 10 cl.toList).1
                bytesNeeded := (strtoul 10 cl.toList).1 }))
    ∧ (cl ≠ "" → (strtoul 10 cl.toList).2 = cl.length →
        (maxB = 0 ∨ (strtoul 10 cl.toList).1 ≤ maxB) →
        prepareBody (initParser maxB [(headerContentLength, cl)]) =
          (decide ((strtoul 10 cl.toList).1 ≠ 0), none,
            { initParser maxB [(headerContentLength, cl)] with
                bytesTotal := (strtoul 10 cl.toList).1
                bytesNeeded := (strtoul 10 cl.toList).1 }))
    ∧ (prepareBody (initParser 0 [(headerContentLength, "12abc")])).2.1 =
        some HttpError.invalidFormat := by
  have hget : getHeader (initParser maxB [(headerContentLength, cl)]) headerContentLength
      = cl := by
    simp [getHeader, findHeader, initParser, ciEq_refl]
  have habsent : prepareBody (initParser maxB []) = (false, none, initParser maxB []) := by
    simp [prepareBody, prepareBodyCE, prepareBodyTE, prepareBodyCL, getHeaderAsPlist,
      findHeader, getHeader, pushContentEncodings, initParser]
  refine ⟨habsent, ?_, ?_, ?_, by decide⟩
  · intro hne hfmt
    have hfmt' : (strtoul 10 cl.data).2 ≠ cl.length := hfmt
    rw [prepareBody_cl_only]
    unfold prepareBodyCL
    rw [hget]
    simp [hne, hfmt', initParser]
  · intro hne hfmt hmx hbig
    have hfmt' : (strtoul 10 cl.data).2 = cl.length := hfmt
    have hbig' : maxB < (strtoul 10 cl.data).1 := hbig
    rw [prepareBody_cl_only]
    unfold prepareBodyCL
    rw [hget]
    simp [hne, hfmt', hmx, hbig', initParser]
  · intro hne hfmt hok
    have hfmt' : (strtoul 10 cl.data).2 = cl.length := hfmt
    have hcond : ¬ (¬ maxB = 0 ∧ maxB < (strtoul 10 cl.data).1) := by
      rcases hok with h | h
      · simp [h]
      · have h2 : (strtoul 10 cl.data).1 ≤ maxB := h
        omega
    rw [prepareBody_cl_only]
    unfold prepareBodyCL
    rw [hget]
    simp [hne, hfmt', hcond, initParser]

/-- C4 witness: concrete application of `c4_content_length_path`. -/
theorem c4_content_length_path_witness :
    prepareBody (initParser 5 [(headerContentLength, "3")]) =
      (decide ((strtoul 10 "3".toList).1 ≠ 0), none,
        { initParser 5 [(headerContentLength, "3")] with
            bytesTotal := (strtoul 10 "3".toList).1
            bytesNeeded := (strtoul 10 "3".toList).1 }) :=
  (c4_content_length_path 5 "3").2.2.2.1 (by decide) (by decide) (by decide)

/-- The observable outcome of a `prepare_body` call: its boolean result, its
error code, and every state component except the header store itself. -/
def outcomeParts (r : Bool × Option HttpError × ParserState) :
    Bool × Option HttpError × String × List ContentEncoding × List TransferEncoding
      × Nat × Nat × Nat :=
  (r.1, r.2.1, r.2.2.body, r.2.2.contentEncodings, r.2.2.transferEncodings,
   r.2.2.bytesNeeded, r.2.2.bytesTotal, r.2.2.bytesMax)

/-- The Content-Length fallthrough only depends on the Content-Length header
value and the non-header state components. -/
theorem prepareBodyCL_cong (s1 s2 : ParserState)
    (hcl : getHeader s1 headerContentLength = getHeader s2 headerContentLength)
    (hbody : s1.body = s2.body) (hce : s1.contentEncodings = s2.contentEncodings)
    (hte : s1.transferEncodings = s2.transferEncodings)
    (hneed : s1.bytesNeeded = s2.bytesNeeded) (htot : s1.bytesTotal = s2.bytesTotal)
    (hmax : s1.bytesMax = s2.bytesMax) :
    outcomeParts (prepareBodyCL s1) = outcomeParts (prepareBodyCL s2) := by
  unfold prepareBodyCL
  rw [hcl, hmax]
  by_cases h1 : getHeader s2 headerContentLength = ""
  · simp [h1, outcomeParts, hbody, hce, hte, hneed, htot, hmax]
  · by_cases h2 : (strtoul 10 (getHeader s2 headerContentLength).data).2 =
        (getHeader s2 headerContentLength).length
    · by_cases h3 : ¬ s2.bytesMax = 0 ∧
          s2.bytesMax < (strtoul 10 (getHeader s2 headerContentLength).data).1
      · simp [h1, h2, h3, outcomeParts, hbody, hce, hte, hmax]
      · simp [h1, h2, h3, outcomeParts, hbody, hce, hte, hmax]
    · simp [h1, h2, outcomeParts, hbody, hce, hte, hmax]

/-- C5: a Content-Encoding or Transfer-Encoding header that is empty or that
fails to parse as a parameter list behaves exactly like a missing header:
the validation loop is skipped, no error is reported, and negotiation falls
through to the Content-Length path with the same outcome. -/
theorem c5_unparseable_encoding_ignored (maxB : Nat) (cl v : String)
    (hv : extractParameters v.toList = none) :
    outcomeParts (prepareBody (initParser maxB
        [(headerContentEncoding, v), (headerContentLength, cl)])) =
      outcomeParts (prepareBody (initParser maxB [(headerContentLength, cl)]))
    ∧ outcomeParts (prepareBody (initParser maxB
        [(headerTransferEncoding, v), (headerContentLength, cl)])) =
      outcomeParts (prepareBody (initParser maxB [(headerContentLength, cl)])) := by
  have hb := prepareBody_cl_only maxB cl
  have hv' : extractParameters v.data = none := hv
  have hceP : prepareBody (initParser maxB
      [(headerContentEncoding, v), (headerContentLength, cl)]) =
      prepareBodyCL (initParser maxB
        [(headerContentEncoding, v), (headerContentLength, cl)]) := by
    by_cases hvl : v.length = 0 <;>
    simp [prepareBody, prepareBodyCE, prepareBodyTE, getHeaderAsPlist, findHeader,
      ciEq_refl, ciEq_ce_te, ciEq_cl_te, hvl, parseParameterList, hv',
      pushContentEncodings, initParser]
  have hteP : prepareBody (initParser maxB
      [(headerTransferEncoding, v), (headerContentLength, cl)]) =
      prepareBodyCL (initParser maxB
        [(headerTransferEncoding, v), (headerContentLength, cl)]) := by
    by_cases hvl : v.length = 0 <;>
    simp [prepareBody, prepareBodyCE, prepareBodyTE, getHeaderAsPlist, findHeader,
      ciEq_refl, ciEq_te_ce, ciEq_cl_ce, hvl, parseParameterList, hv',
      pushContentEncodings, initParser]
  have hg1 : getHeader (initParser maxB
      [(headerContentEncoding, v), (headerContentLength, cl)]) headerContentLength =
      getHeader (initParser maxB [(headerContentLength, cl)]) headerContentLength := by
    simp [getHeader, findHeader, initParser, ciEq_refl, ciEq_ce_cl]
  have hg2 : getHeader (initParser maxB
      [(headerTransferEncoding, v), (headerContentLength, cl)]) headerContentLength =
      getHeader (initParser maxB [(headerContentLength, cl)]) headerContentLength := by
    simp [getHeader, findHeader, initParser, ciEq_refl, ciEq_te_cl]
  constructor
  · rw [hceP, hb]
    exact prepareBodyCL_cong _ _ hg1 rfl rfl rfl rfl rfl rfl
  · rw [hteP, hb]
    exact prepareBodyCL_cong _ _ hg2 rfl rfl rfl rfl rfl rfl

/-- C5 witness: concrete application of `c5_unparseable_encoding_ignored`
(the value "," is not a parameter list). -/
theorem c5_unparseable_encoding_ignored_witness :
    outcomeParts (prepareBody (initParser 0
        [(headerContentEncoding, ","), (headerContentLength, "5")])) =
      outcomeParts (prepareBody (initParser 0 [(headerContentLength, "5")])) :=
  (c5_unparseable_encoding_ignored 0 "5" "," (by decide)).1

/-- C8: in chunked framing at a chunk boundary, a buffer that begins with
CRLF has an empty chunk-size line, which `strtoul` parses as 0 with no
`InvalidFormat`; size 0 is the terminal-chunk marker, so the call reports
the whole buffer consumed and appends nothing to the body. -/
theorem c8_crlf_terminal_chunk (s : ParserState) (rest : List Char)
    (hch : s.transferEncodings.contains TransferEncoding.chunked = true)
    (hn : s.bytesNeeded = 0)
    (hm : s.bytesMax = 0 ∨ s.bytesTotal ≤ s.bytesMax) :
    (processBody s ('\r' :: '\n' :: rest)).1 = ('\r' :: '\n' :: rest).length
    ∧ (processBody s ('\r' :: '\n' :: rest)).2.1 = none
    ∧ (processBody s ('\r' :: '\n' :: rest)).2.2.body = s.body := by
  have hcond : ¬ (¬ s.bytesMax = 0 ∧ s.bytesMax < s.bytesTotal % 18446744073709551616) := by
    rcases hm with h | h
    · simp [h]
    · intro hc
      omega
  unfold processBody processBodyAux
  simp [hch, hn, findCRLF, strtoul16_nil, hcond]

/-- C8 witness: concrete application of `c8_crlf_terminal_chunk`. -/
theorem c8_crlf_terminal_chunk_witness :
    (processBody { initParser 0 [] with transferEncodings := [TransferEncoding.chunked] }
        ('\r' :: '\n' :: "XYZ".toList)).1 = 5
    ∧ (processBody { initParser 0 [] with transferEncodings := [TransferEncoding.chunked] }
        ('\r' :: '\n' :: "XYZ".toList)).2.2.body = "" := by
  have h := c8_crlf_terminal_chunk
    { initParser 0 [] with transferEncodings := [TransferEncoding.chunked] }
    "XYZ".toList (by decide) (by decide) (Or.inl (by decide))
  exact ⟨h.1.trans (by decide), h.2.2.trans (by decide)⟩

end WsppHttp
